import Mathlib

/-!
# Verification of `sysinfo-osc-client-vrc` (`src/main.rs`)

A shallow embedding of the program in `src/main.rs`: a poll loop that builds a
text snapshot from a list of metric sources (`get_info`), encodes it as an OSC
message (`rosc`), and sends it over UDP.

Modelling conventions:
* Rust `String`s and byte buffers are `List Nat` (their UTF-8 bytes; every
  byte is `< 256` in the reachable cases, which no theorem here depends on).
  `String::pop` is modelled by `List.dropLast`: in `get_info` the final
  character of a non-empty accumulator is always the one-byte `'\n'` that was
  just pushed, so popping one character removes exactly one byte.
* Fallible external queries (NVML device reads, the UDP send) are oracles:
  their results are inputs of the embedded functions.
* `f32` arithmetic is modelled by exact rational arithmetic, and Rust's
  `{:.2}`-style formatting by round-half-to-even on the exact value; this
  agrees with the Rust computation whenever that computation is exact (all
  concrete inputs used below are of that kind).
-/

set_option autoImplicit false

namespace SysinfoOsc

/-! ## Definitions

### Decimal digit rendering (Rust `{}` formatting of unsigned integers) -/

/-- Digits of `n` in base 10 as ASCII bytes, with explicit fuel
(`fuel > n` suffices). -/
def natDigitsAux : Nat → Nat → List Nat
  | 0, _ => []
  | fuel + 1, n => if n < 10 then [48 + n] else natDigitsAux fuel (n / 10) ++ [48 + n % 10]

/-- ASCII decimal rendering of `n`, e.g. `natDigits 125 = [49, 50, 53]`. -/
def natDigits (n : Nat) : List Nat :=
  natDigitsAux (n + 1) n

/-! ### Fixed-point formatting (Rust `{:.1}` / `{:.2}` on nonnegative values) -/

/-- Floor of a rational, computed from its numerator and denominator
(equal to `Int.floor`, see `qfloor_eq_floor`). -/
def qfloor (q : ℚ) : ℤ :=
  q.num / q.den

/-- Round a rational to the nearest integer, ties to even — the rounding Rust
uses when formatting the exact value of a float with fixed precision. -/
def rheQ (q : ℚ) : ℤ :=
  if q - qfloor q < 1/2 then qfloor q
  else if 1/2 < q - qfloor q then qfloor q + 1
  else if qfloor q % 2 = 0 then qfloor q else qfloor q + 1

/-- Rust `{:.2}` formatting of a nonnegative exact value `q`:
integer digits, `'.'` (byte 46), then exactly two fractional digits of the
value rounded to hundredths. -/
def fmtFixed2 (q : ℚ) : List Nat :=
  natDigits ((rheQ (q * 100)).toNat / 100)
    ++ [46, 48 + (rheQ (q * 100)).toNat / 10 % 10,
        48 + (rheQ (q * 100)).toNat % 10]

/-- Rust `{:.1}` formatting of a nonnegative exact value `q`. -/
def fmtFixed1 (q : ℚ) : List Nat :=
  natDigits ((rheQ (q * 10)).toNat / 10) ++ [46, 48 + (rheQ (q * 10)).toNat % 10]

/-! ### The snapshot builder `get_info` (`src/main.rs` lines 190–199)

```rust
fn get_info(providers: &mut Vec<Box<dyn Info>>) -> String {
    let mut info_str = String::new();
    for provider in providers {
        info_str.push_str(provider.get_info().as_str());
        info_str.push_str("\n");
    }
    info_str.pop();
    info_str
}
```

The provider outputs are abstracted as the list `outs` of byte strings. -/

/-- The builder: append every provider output followed by `'\n'` (byte 10),
then pop the last character. -/
def get_info (outs : List (List Nat)) : List Nat :=
  (outs.foldl (fun acc s => acc ++ s ++ [10]) []).dropLast

/-! ### The metric sources (`impl Info for …` in `src/main.rs`)

Each `get_info` is a function of the values the underlying library calls
return on that tick; those values are inputs of the model. -/

/-- A local date-time as chrono hands it to the format string: calendar
fields plus the UTC offset (sign and absolute value in seconds). -/
structure LocalDateTime where
  month : Nat
  day : Nat
  year : Nat
  hour : Nat
  minute : Nat
  second : Nat
  offNeg : Bool
  offAbsSeconds : Nat
deriving DecidableEq

/-- Two-digit zero-padded rendering (chrono's `%m`, `%d`, `%H`, `%M`, `%S`
for their in-range values `< 100`). -/
def pad2 (n : Nat) : List Nat :=
  [48 + n / 10 % 10, 48 + n % 10]

/-- Four-digit zero-padded rendering (chrono's `%Y` for `0 ≤ year < 10000`). -/
def pad4 (n : Nat) : List Nat :=
  [48 + n / 1000 % 10, 48 + n / 100 % 10, 48 + n / 10 % 10, 48 + n % 10]

/-- `TimeInfo::get_info` (lines 53–60): chrono's rendering of the format
string `"%m/%d/%Y %H:%M:%S UTC%:::z"`. Per chrono's documentation, `%:::z`
prints the offset sign and the two-digit hour component only (e.g. `+09`);
no minutes or seconds. `UTC` is the literal bytes 85, 84, 67; `/` is 47,
`:` is 58, space is 32, `+`/`-` are 43/45. -/
def TimeInfo.get_info (t : LocalDateTime) : List Nat :=
  pad2 t.month ++ [47] ++ pad2 t.day ++ [47] ++ pad4 t.year ++ [32]
    ++ pad2 t.hour ++ [58] ++ pad2 t.minute ++ [58] ++ pad2 t.second
    ++ [32, 85, 84, 67]
    ++ [if t.offNeg then 45 else 43] ++ pad2 (t.offAbsSeconds / 3600)

/-- `CpuInfo::get_info` (lines 72–82): `"CPU: {:.2}%, Processes: {:?}"` of the
sampler's global CPU usage (a float, modelled as the exact rational
`cpuUsage`) and the process count. -/
def CpuInfo.get_info (cpuUsage : ℚ) (nproc : Nat) : List Nat :=
  [67, 80, 85, 58, 32] ++ fmtFixed2 cpuUsage
    ++ [37, 44, 32, 80, 114, 111, 99, 101, 115, 115, 101, 115, 58, 32]
    ++ natDigits nproc

/-- Exponent of the binary unit the `bytesize` crate picks for `n` bytes:
the largest `e ≤ 6` with `1024 ^ e ≤ n`. -/
def bytesizeExp (n : Nat) : Nat :=
  if 1024 ^ 6 ≤ n then 6
  else if 1024 ^ 5 ≤ n then 5
  else if 1024 ^ 4 ≤ n then 4
  else if 1024 ^ 3 ≤ n then 3
  else if 1024 ^ 2 ≤ n then 2
  else if 1024 ≤ n then 1
  else 0

/-- Unit letter for `bytesizeExp`: K, M, G, T, P, E. -/
def bytesizeUnitByte : Nat → Nat
  | 1 => 75
  | 2 => 77
  | 3 => 71
  | 4 => 84
  | 5 => 80
  | _ => 69

/-- `bytesize::to_string(n, true)` (binary prefixes): `"{n} B"` below 1 KiB,
otherwise `"{:.1} {unit}iB"` of `n / 1024^e`. Modelled from the crate's
documented rendering; no theorem below depends on its exact digits. -/
def bytesizeToString (n : Nat) : List Nat :=
  if n < 1024 then natDigits n ++ [32, 66]
  else
    let e := bytesizeExp n
    fmtFixed1 ((n : ℚ) / (1024 : ℚ) ^ e) ++ [32, bytesizeUnitByte e, 105, 66]

/-- The percentage `used / total * 100` as Rust computes and formats it with
`{:.2}` (`used as f32 / total as f32 * 100.0`, modelled exactly). -/
def pct2 (used total : Nat) : List Nat :=
  fmtFixed2 ((used : ℚ) / (total : ℚ) * 100)

/-- `RamInfo::get_info` (lines 94–104): `"RAM: {} ({:.2}%)"` of the used
memory rendered by `bytesize` and the used/total percentage. -/
def RamInfo.get_info (used total : Nat) : List Nat :=
  [82, 65, 77, 58, 32] ++ bytesizeToString used ++ [32, 40]
    ++ pct2 used total ++ [37, 41]

/-- Results of the four NVML device queries a GPU tick performs
(lines 120–130): memory info (used, total), utilization, power draw in
milliwatts, temperature in °C. Each may fail. -/
structure GpuQueryResults where
  memInfo : Except Unit (Nat × Nat)
  utilization : Except Unit Nat
  powerUsage : Except Unit Nat
  temperature : Except Unit Nat

/-- The power field of the GPU line: `{:.2}` of
`self.device.power_usage().unwrap() as f32 / 1000.0` (line 124). -/
def powerWattsStr (mw : Nat) : List Nat :=
  fmtFixed2 ((mw : ℚ) / 1000)

/-- `GpuInfo::get_info` (lines 118–133):
`"GPU: {}% ({:.2}W{})\n{} ({:.2}%)"`. The `memory_info()`,
`utilization_rates()` and `power_usage()` results are `.unwrap()`ed — an
error there panics, modelled as `none`; only a `temperature()` error is
handled (the `", {}°C"` piece becomes empty). `°C` is UTF-8
`[194, 176, 67]`. -/
def GpuInfo.get_info (q : GpuQueryResults) : Option (List Nat) :=
  match q.memInfo with
  | .error _ => none
  | .ok (used, total) =>
    match q.utilization with
    | .error _ => none
    | .ok util =>
      match q.powerUsage with
      | .error _ => none
      | .ok mw =>
        some ([71, 80, 85, 58, 32] ++ natDigits util ++ [37, 32, 40]
          ++ powerWattsStr mw ++ [87]
          ++ (match q.temperature with
              | .ok temp => [44, 32] ++ natDigits temp ++ [194, 176, 67]
              | .error _ => [])
          ++ [41, 10]
          ++ bytesizeToString used ++ [32, 40] ++ pct2 used total ++ [37, 41])

/-! ### OSC message encoding (`rosc::encoder::encode_into`, lines 171–176)

The message sent each tick is
`OscMessage { addr: "/chatbox/input", args: [String(info), Bool(true)] }`.
OSC strings are written as their bytes followed by 1–4 null bytes, padding
the total length to a multiple of four; a `Bool` argument is carried entirely
by its type tag (`T`/`F`) with no payload bytes. The type-tag string is `,`
followed by one tag byte per argument, itself null-padded like a string. -/

/-- An OSC string on the wire: the bytes plus null padding to 4-alignment
(at least one null terminator). -/
def padCstr (s : List Nat) : List Nat :=
  s ++ List.replicate (4 - s.length % 4) 0

/-- The two argument kinds the program uses. -/
inductive OscArg where
  | str (s : List Nat)
  | bool (b : Bool)
deriving DecidableEq

/-- OSC type-tag byte: `s` = 115 for strings, `T` = 84 / `F` = 70 for
booleans. -/
def tagByte : OscArg → Nat
  | .str _ => 115
  | .bool true => 84
  | .bool false => 70

/-- Payload bytes of one argument: a padded string for `s`; nothing for a
boolean (the tag alone carries the value). -/
def argPayload : OscArg → List Nat
  | .str s => padCstr s
  | .bool _ => []

/-- A whole OSC message: padded address, padded type-tag string
(`','` = 44 then one tag per argument), then the argument payloads. -/
def encodeMsg (addr : List Nat) (args : List OscArg) : List Nat :=
  padCstr addr ++ padCstr (44 :: args.map tagByte) ++ (args.map argPayload).flatten

/-- The bytes of the fixed address `"/chatbox/input"` (line 172). -/
def chatboxAddr : List Nat :=
  [47, 99, 104, 97, 116, 98, 111, 120, 47, 105, 110, 112, 117, 116]

/-- The datagram built for snapshot text `info` (lines 171–176). -/
def oscSnapshotMsg (info : List Nat) : List Nat :=
  encodeMsg chatboxAddr [OscArg.str info, OscArg.bool true]

/-! ### A conformant OSC decoder

Reads a padded string by scanning to the first null and skipping to the next
4-byte boundary, reads arguments as directed by the type tags, and requires
the message to be fully consumed. -/

/-- Read one padded OSC string: the bytes before the first null, consuming
the string together with its null padding. Fails if there is no null
terminator or the padding runs past the end of the input. -/
def readPaddedStr (b : List Nat) : Option (List Nat × List Nat) :=
  let s := b.takeWhile (fun x => x != 0)
  let consumed := s.length + (4 - s.length % 4)
  if s.length < b.length ∧ consumed ≤ b.length then some (s, b.drop consumed)
  else none

/-- Read the arguments listed in the tag bytes `tags` from the byte
stream. -/
def readArgs : List Nat → List Nat → Option (List OscArg × List Nat)
  | [], b => some ([], b)
  | 115 :: ts, b =>
    (readPaddedStr b).bind fun sr =>
      (readArgs ts sr.2).map fun ar => (OscArg.str sr.1 :: ar.1, ar.2)
  | 84 :: ts, b => (readArgs ts b).map fun ar => (OscArg.bool true :: ar.1, ar.2)
  | 70 :: ts, b => (readArgs ts b).map fun ar => (OscArg.bool false :: ar.1, ar.2)
  | _ :: _, _ => none

/-- Decode a whole OSC message: address, type-tag string starting with `','`,
then the arguments; the input must be consumed exactly. -/
def decodeMsg (b : List Nat) : Option (List Nat × List OscArg) :=
  (readPaddedStr b).bind fun ar =>
    (readPaddedStr ar.2).bind fun tr =>
      match tr.1 with
      | 44 :: ts =>
        (readArgs ts tr.2).bind fun gr =>
          if gr.2 = [] then some (ar.1, gr.1) else none
      | _ => none

/-! ### The poll loop (`main`, lines 135–188)

One tick's external inputs are the flag value `running.load(..)` observed at
the top of the iteration, the provider outputs of that tick, and whether the
UDP `send_to` would succeed. The loop's observable behaviour is the list of
events (snapshots built, byte buffers handed to `send_to`) plus how the loop
ended: `graceful` when the flag was seen false (or the run is truncated),
`sendError` when a failed `send_to` made the `?` operator abort `main`. -/

/-- External inputs of one loop iteration. -/
structure TickInput where
  running : Bool
  outs : List (List Nat)
  sendOk : Bool
deriving DecidableEq

/-- Observable events of the loop. -/
inductive Event where
  | built (info : List Nat)
  | sendAttempt (bytes : List Nat) (ok : Bool)
deriving DecidableEq

/-- How the loop ended. -/
inductive Outcome where
  | graceful
  | sendError
deriving DecidableEq

/-- Is this event a call to `send_to`? -/
def Event.isSend : Event → Bool
  | .built _ => false
  | .sendAttempt _ _ => true

/-- The poll loop body, carrying the reusable encode buffer `buf`
(initially `Vec::new()`). Per tick: check the flag (exit gracefully when
false); sleep; build the snapshot; skip the tick when it is empty; append
the encoded message to `buf` (`rosc::encoder::encode_into` extends the
buffer); call `send_to` with the whole buffer — on failure the `?` operator
aborts the loop with the error, on success `buf.set_len(0)` resets the
buffer. The input list is the (finite) window of ticks observed. -/
def runLoop (buf : List Nat) : List TickInput → List Event × Outcome
  | [] => ([], Outcome.graceful)
  | i :: rest =>
    if i.running then
      let info := get_info i.outs
      if info = [] then
        let r := runLoop buf rest
        (Event.built info :: r.1, r.2)
      else
        let buf2 := buf ++ oscSnapshotMsg info
        if i.sendOk then
          let r := runLoop [] rest
          (Event.built info :: Event.sendAttempt buf2 true :: r.1, r.2)
        else
          ([Event.built info, Event.sendAttempt buf2 false], Outcome.sendError)
    else ([], Outcome.graceful)

/-- Reference loop with no reusable buffer: each attempted send carries
exactly that tick's encoded message. This is the behaviour the spec
describes; `runLoop [] = refLoop` states the reset discipline is airtight. -/
def refLoop : List TickInput → List Event × Outcome
  | [] => ([], Outcome.graceful)
  | i :: rest =>
    if i.running then
      let info := get_info i.outs
      if info = [] then
        let r := refLoop rest
        (Event.built info :: r.1, r.2)
      else if i.sendOk then
        let r := refLoop rest
        (Event.built info :: Event.sendAttempt (oscSnapshotMsg info) true :: r.1, r.2)
      else
        ([Event.built info, Event.sendAttempt (oscSnapshotMsg info) false],
          Outcome.sendError)
    else ([], Outcome.graceful)

/-! ### The source registry (`main`, lines 151–163) -/

/-- The resolved command-line configuration (`struct Args`, lines 23–45). -/
structure Args where
  no_time : Bool
  no_cpu : Bool
  no_ram : Bool
  no_gpu : Bool
  interval : Nat
deriving DecidableEq

/-- The four source kinds, in registration order. -/
inductive SourceKind where
  | time
  | cpu
  | ram
  | gpu
deriving DecidableEq

/-- Is a source enabled by the flags? -/
def enabledSource (a : Args) : SourceKind → Bool
  | .time => !a.no_time
  | .cpu => !a.no_cpu
  | .ram => !a.no_ram
  | .gpu => !a.no_gpu

/-- The `infos` vector built before the loop (lines 151–163): each enabled
source pushed in the fixed order Time, Cpu, Ram, Gpu. -/
def buildRegistry (a : Args) : List SourceKind :=
  (if !a.no_time then [SourceKind.time] else [])
    ++ (if !a.no_cpu then [SourceKind.cpu] else [])
    ++ (if !a.no_ram then [SourceKind.ram] else [])
    ++ (if !a.no_gpu then [SourceKind.gpu] else [])

/-! ### Timestamp patterns (for the only-Time scenario) -/

/-- One token of a byte-string pattern: a literal byte, any ASCII digit, or
a `+`/`-` sign. -/
inductive Tok where
  | lit (b : Nat)
  | digit
  | sign
deriving DecidableEq

/-- Does a byte match a pattern token? -/
def matchesTok : Tok → Nat → Bool
  | .lit b, x => x == b
  | .digit, x => decide (48 ≤ x) && decide (x ≤ 57)
  | .sign, x => x == 43 || x == 45

/-- Does a byte string match a token pattern exactly (same length,
position-wise match)? -/
def matchesPat : List Tok → List Nat → Bool
  | [], [] => true
  | t :: ts, b :: bs => matchesTok t b && matchesPat ts bs
  | _, _ => false

/-- The pattern the spec claims: `MM/DD/YYYY HH:MM:SS UTC±HH:MM:SS`
(offset with hours, minutes and seconds). -/
def claimedTimePattern : List Tok :=
  [Tok.digit, Tok.digit, Tok.lit 47, Tok.digit, Tok.digit, Tok.lit 47,
   Tok.digit, Tok.digit, Tok.digit, Tok.digit, Tok.lit 32,
   Tok.digit, Tok.digit, Tok.lit 58, Tok.digit, Tok.digit, Tok.lit 58,
   Tok.digit, Tok.digit, Tok.lit 32, Tok.lit 85, Tok.lit 84, Tok.lit 67,
   Tok.sign, Tok.digit, Tok.digit, Tok.lit 58, Tok.digit, Tok.digit,
   Tok.lit 58, Tok.digit, Tok.digit]

/-- The pattern the code actually produces: `MM/DD/YYYY HH:MM:SS UTC±HH`
(offset hours only, per chrono's `%:::z`). -/
def actualTimePattern : List Tok :=
  [Tok.digit, Tok.digit, Tok.lit 47, Tok.digit, Tok.digit, Tok.lit 47,
   Tok.digit, Tok.digit, Tok.digit, Tok.digit, Tok.lit 32,
   Tok.digit, Tok.digit, Tok.lit 58, Tok.digit, Tok.digit, Tok.lit 58,
   Tok.digit, Tok.digit, Tok.lit 32, Tok.lit 85, Tok.lit 84, Tok.lit 67,
   Tok.sign, Tok.digit, Tok.digit]

/-- Concrete one-byte outputs for each source kind, for witnesses. -/
def demoOutputs : SourceKind → List Nat
  | .time => [84]
  | .cpu => [67]
  | .ram => [82]
  | .gpu => [71]

/-! ## Helper lemmas -/

/-- Every byte produced by `natDigitsAux` is an ASCII digit. -/
theorem natDigitsAux_mem_range (fuel n : Nat) :
    ∀ d ∈ natDigitsAux fuel n, 48 ≤ d ∧ d ≤ 57 := by
  induction fuel generalizing n with
  | zero => intro d hd; simp [natDigitsAux] at hd
  | succ fuel ih =>
    intro d hd
    simp only [natDigitsAux] at hd
    by_cases h : n < 10
    · rw [if_pos h] at hd
      simp only [List.mem_singleton] at hd
      omega
    · rw [if_neg h] at hd
      rcases List.mem_append.mp hd with h' | h'
      · exact ih (n / 10) d h'
      · simp only [List.mem_singleton] at h'
        have : n % 10 < 10 := Nat.mod_lt _ (by omega)
        omega

/-- Every byte of `natDigits n` is an ASCII digit (in particular not `'.'`). -/
theorem natDigits_mem_range (n : Nat) : ∀ d ∈ natDigits n, 48 ≤ d ∧ d ≤ 57 :=
  natDigitsAux_mem_range (n + 1) n

theorem qfloor_eq_floor (q : ℚ) : qfloor q = Int.floor q :=
  Rat.floor_def.symm

/-- Rounding to the nearest integer moves the value by at most `1/2`. -/
theorem rheQ_close (q : ℚ) : |(rheQ q : ℚ) - q| ≤ 1/2 := by
  have hfl : ((qfloor q : ℤ) : ℚ) ≤ q := by
    rw [qfloor_eq_floor]; exact Int.floor_le q
  have hfu : q < ((qfloor q : ℤ) : ℚ) + 1 := by
    rw [qfloor_eq_floor]; exact Int.lt_floor_add_one q
  unfold rheQ
  split_ifs with h1 h2 h3 <;>
    · rw [abs_le]
      push_cast
      constructor <;> linarith

/-- `rheQ` of a nonnegative rational is nonnegative. -/
theorem rheQ_nonneg (q : ℚ) (hq : 0 ≤ q) : 0 ≤ rheQ q := by
  have hfl : (0 : ℤ) ≤ qfloor q := by
    rw [qfloor_eq_floor]
    exact Int.le_floor.mpr (by exact_mod_cast hq)
  unfold rheQ
  split_ifs <;> omega

/-- `rheQ` is the identity on integers. -/
theorem rheQ_intCast (n : ℤ) : rheQ (n : ℚ) = n := by
  unfold rheQ
  rw [qfloor_eq_floor, Int.floor_intCast]
  norm_num

theorem get_info_foldl (outs : List (List Nat)) (acc : List Nat) :
    outs.foldl (fun acc s => acc ++ s ++ [10]) acc
      = acc ++ (outs.map (· ++ [10])).flatten := by
  induction outs generalizing acc with
  | nil => simp
  | cons o t ih =>
    rw [List.map_cons, List.flatten_cons, List.foldl_cons, ih]
    simp [List.append_assoc]

theorem flatten_map_append_newline (outs : List (List Nat)) (h : outs ≠ []) :
    (outs.map (· ++ [10])).flatten = List.intercalate [10] outs ++ [10] := by
  induction outs with
  | nil => simp at h
  | cons o t ih =>
    cases t with
    | nil => simp [List.intercalate]
    | cons o' t' =>
      rw [List.map_cons, List.flatten_cons, ih (by simp)]
      simp [List.intercalate, List.intersperse]

/-- The builder joins all provider outputs — empty ones included — with a
single newline byte. -/
theorem get_info_eq_intercalate (outs : List (List Nat)) :
    get_info outs = List.intercalate [10] outs := by
  unfold get_info
  rw [get_info_foldl outs [], List.nil_append]
  cases outs with
  | nil => simp [List.intercalate]
  | cons o t =>
    rw [flatten_map_append_newline (o :: t) (by simp), List.dropLast_concat]

/-! ### Round-trip lemmas for the OSC wire format -/

theorem takeWhile_ne_zero_append (s t : List Nat) (h : 0 ∉ s) :
    (s ++ 0 :: t).takeWhile (fun x => x != 0) = s := by
  induction s with
  | nil => simp
  | cons a s ih =>
    rw [List.mem_cons, not_or] at h
    have ha : (a != 0) = true := by
      rw [bne_iff_ne]
      exact fun e => h.1 e.symm
    simpa [List.takeWhile_cons, ha] using ih h.2

theorem readPaddedStr_padCstr (s r : List Nat) (h : 0 ∉ s) :
    readPaddedStr (padCstr s ++ r) = some (s, r) := by
  obtain ⟨k, hk⟩ : ∃ k, 4 - s.length % 4 = k + 1 := ⟨3 - s.length % 4, by omega⟩
  have hrepl : List.replicate (4 - s.length % 4) (0 : Nat)
      = 0 :: List.replicate k 0 := by rw [hk, List.replicate_succ]
  have hsplit : padCstr s ++ r = s ++ 0 :: (List.replicate k 0 ++ r) := by
    rw [padCstr, hrepl, List.append_assoc, List.cons_append]
  rw [hsplit]
  unfold readPaddedStr
  rw [takeWhile_ne_zero_append s _ h]
  have hlen : s.length < (s ++ 0 :: (List.replicate k 0 ++ r)).length := by
    simp
  have hcons : s.length + (4 - s.length % 4)
      ≤ (s ++ 0 :: (List.replicate k 0 ++ r)).length := by
    simp [hk]
  rw [if_pos ⟨hlen, hcons⟩]
  have hre : s ++ 0 :: (List.replicate k 0 ++ r)
      = (s ++ 0 :: List.replicate k 0) ++ r := by simp
  have hdroplen : s.length + (4 - s.length % 4)
      = (s ++ 0 :: List.replicate k 0).length := by simp [hk]
  rw [hre, hdroplen, List.drop_left]

theorem readArgs_roundtrip (args : List OscArg) (rest : List Nat)
    (h : ∀ s, OscArg.str s ∈ args → 0 ∉ s) :
    readArgs (args.map tagByte) ((args.map argPayload).flatten ++ rest)
      = some (args, rest) := by
  induction args with
  | nil => simp [readArgs]
  | cons a t ih =>
    have ht : ∀ s, OscArg.str s ∈ t → 0 ∉ s :=
      fun s hs => h s (List.mem_cons_of_mem _ hs)
    cases a with
    | str s =>
      have hs : 0 ∉ s := h s (List.mem_cons_self _ _)
      simp only [List.map_cons, List.flatten_cons, tagByte, argPayload,
        List.append_assoc, readArgs]
      rw [readPaddedStr_padCstr s _ hs]
      simp [ih ht]
    | bool b =>
      cases b <;>
        simp only [List.map_cons, List.flatten_cons, tagByte, argPayload,
          List.nil_append, readArgs] <;>
        simp [ih ht]

theorem decodeMsg_encodeMsg (addr : List Nat) (args : List OscArg)
    (haddr : 0 ∉ addr) (hargs : ∀ s, OscArg.str s ∈ args → 0 ∉ s) :
    decodeMsg (encodeMsg addr args) = some (addr, args) := by
  have htags : (0 : Nat) ∉ 44 :: args.map tagByte := by
    rw [List.mem_cons, not_or]
    refine ⟨by omega, ?_⟩
    intro hmem
    obtain ⟨a, _, ha⟩ := List.mem_map.mp hmem
    cases a with
    | str s => simp [tagByte] at ha
    | bool b => cases b <;> simp [tagByte] at ha
  unfold encodeMsg decodeMsg
  rw [List.append_assoc, readPaddedStr_padCstr addr _ haddr]
  simp only [Option.some_bind]
  rw [readPaddedStr_padCstr _ _ htags]
  simp only [Option.some_bind]
  have hflat : (args.map argPayload).flatten
      = (args.map argPayload).flatten ++ [] := by simp
  rw [hflat, readArgs_roundtrip args [] hargs]
  simp

/-! ## Claim theorems -/

/-- C3 (counterexample): with an empty-output source followed by a non-empty
one, `get_info` does NOT omit the empty segment: the result `[10, 72]`
starts with a newline byte and differs from the output with the empty source
absent (`[72]`). -/
theorem C3_counterexample :
    get_info [[], [72]] = [10, 72]
    ∧ get_info [[72]] = [72]
    ∧ get_info [[], [72]] ≠ get_info [[72]]
    ∧ (get_info [[], [72]]).head? = some 10 := by
  decide

/-- C3 (amended): the builder does not skip empty source outputs — it joins
ALL outputs, empty ones included, with a single newline byte
(`get_info = List.intercalate [10]`), so an empty source among others leaves
a doubled, leading, or trailing newline rather than being omitted. -/
theorem C3_theorem (outs : List (List Nat)) :
    get_info outs = List.intercalate [10] outs :=
  get_info_eq_intercalate outs

/-- C5 (counterexample): the claim fails with GPU enabled, a configuration
it names explicitly. The real GPU source's text always embeds an interior
newline (its format string `"GPU: {}% ({:.2}W{})\n{} ({:.2}%)"`, line 122,
contains `\n`; second conjunct: the byte 10 occurs in `GpuInfo.get_info`'s
output on a successful query). So with only the GPU source enabled and the
source returning the non-empty text `"G\nM"` (= `[71, 10, 77]`), the
snapshot splits on newline into TWO segments, not exactly one segment for
the one enabled source. -/
theorem C5_counterexample :
    buildRegistry ⟨true, true, true, false, 3⟩ = [SourceKind.gpu]
    ∧ 10 ∈ (GpuInfo.get_info ⟨Except.ok (0, 0), Except.ok 0, Except.ok 0,
        Except.error ()⟩).getD []
    ∧ ([71, 10, 77] : List Nat) ≠ []
    ∧ (get_info [[71, 10, 77]]).splitOn 10 = [[71], [77]]
    ∧ (get_info [[71, 10, 77]]).splitOn 10
        ≠ (buildRegistry ⟨true, true, true, false, 3⟩).map
            (fun _ => [71, 10, 77]) := by
  refine ⟨by decide, ?_, by decide, by decide, by decide⟩
  simp [GpuInfo.get_info]

/-- C5 (amended): with every enabled source producing non-empty text,
`build()` is the single-newline join of one output per enabled source, in
registration order; and the registry is exactly the enabled members of the
fixed order Time, Cpu, Ram, Gpu (hence identical on every tick of a fixed
configuration, the registry being built once from `Args` alone). The output
is NOT in general one newline-separated segment per enabled source, because
a source's own text may contain newlines — the real GPU source's always
does (see the counterexample). -/
theorem C5_theorem (a : Args) (f : SourceKind → List Nat)
    (hne : ∀ k ∈ buildRegistry a, f k ≠ []) :
    get_info ((buildRegistry a).map f)
      = List.intercalate [10] ((buildRegistry a).map f)
    ∧ buildRegistry a
        = [SourceKind.time, SourceKind.cpu, SourceKind.ram,
           SourceKind.gpu].filter (enabledSource a) := by
  constructor
  · exact get_info_eq_intercalate ((buildRegistry a).map f)
  · rcases a with ⟨t, c, r, g, i⟩
    cases t <;> cases c <;> cases r <;> cases g <;> rfl

/-- Witness for C5 at the all-sources-enabled configuration. -/
theorem C5_witness :
    get_info ((buildRegistry ⟨false, false, false, false, 3⟩).map demoOutputs)
      = List.intercalate [10]
          ((buildRegistry ⟨false, false, false, false, 3⟩).map demoOutputs)
    ∧ buildRegistry ⟨false, false, false, false, 3⟩
        = [SourceKind.time, SourceKind.cpu, SourceKind.ram,
           SourceKind.gpu].filter
            (enabledSource ⟨false, false, false, false, 3⟩) :=
  C5_theorem ⟨false, false, false, false, 3⟩ demoOutputs (by decide)

/-- C8 (counterexample): for the local time 2026-10-12 08:30:00 at offset
+09:00:00, the Time source renders `"10/12/2026 08:30:00 UTC+09"` — the
offset carries hours only (chrono's `%:::z`), so the snapshot does not match
the claimed `MM/DD/YYYY HH:MM:SS UTC±HH:MM:SS` pattern. -/
theorem C8_counterexample :
    TimeInfo.get_info ⟨10, 12, 2026, 8, 30, 0, false, 32400⟩
      = [49, 48, 47, 49, 50, 47, 50, 48, 50, 54, 32, 48, 56, 58, 51, 48,
         58, 48, 48, 32, 85, 84, 67, 43, 48, 57]
    ∧ matchesPat claimedTimePattern
        (get_info [TimeInfo.get_info ⟨10, 12, 2026, 8, 30, 0, false, 32400⟩])
      = false := by
  decide

/-- C8 (amended): on a tick with only the Time source enabled, the delivered
snapshot matches `MM/DD/YYYY HH:MM:SS UTC±HH` — local date and time followed
by a UTC offset consisting of a sign and two offset-hour digits only (no
minutes or seconds in the offset). -/
theorem C8_theorem (t : LocalDateTime) :
    matchesPat actualTimePattern (get_info [TimeInfo.get_info t]) = true := by
  have h1 : get_info [TimeInfo.get_info t] = TimeInfo.get_info t := by
    rw [get_info_eq_intercalate]
    simp [List.intercalate]
  rw [h1]
  unfold TimeInfo.get_info pad2 pad4
  cases t.offNeg <;>
    simp [actualTimePattern, matchesPat, matchesTok] <;>
    omega

/-- C1 (counterexample): on a tick whose `send_to` fails, the loop does NOT
proceed to the next tick: the run ends with `sendError` (the `?` operator
propagates the error out of `main`) and the second tick's snapshot is never
built. -/
theorem C1_counterexample :
    runLoop [] [⟨true, [[72]], false⟩, ⟨true, [[73]], true⟩]
      = ([Event.built [72], Event.sendAttempt (oscSnapshotMsg [72]) false],
         Outcome.sendError)
    ∧ Event.built [73]
        ∉ (runLoop [] [⟨true, [[72]], false⟩, ⟨true, [[73]], true⟩]).1 := by
  decide

/-- C1 (amended): a transmission error on `send_to` terminates the loop at
once — `main` returns the error through `?`; there is no report-and-continue
and no further tick, whatever inputs would have followed. -/
theorem C1_theorem (buf : List Nat) (outs : List (List Nat))
    (rest : List TickInput) (h : get_info outs ≠ []) :
    runLoop buf (⟨true, outs, false⟩ :: rest)
      = ([Event.built (get_info outs),
          Event.sendAttempt (buf ++ oscSnapshotMsg (get_info outs)) false],
         Outcome.sendError) := by
  simp [runLoop, h]

/-- Witness for C1 at a concrete failing tick. -/
theorem C1_witness :
    runLoop [] [⟨true, [[72, 105]], false⟩]
      = ([Event.built (get_info [[72, 105]]),
          Event.sendAttempt ([] ++ oscSnapshotMsg (get_info [[72, 105]])) false],
         Outcome.sendError) :=
  C1_theorem [] [[72, 105]] [] (by decide)

/-- C4 (counterexample): with two enabled sources that both return empty
text, the snapshot is the single newline byte `[10]` — not empty — and the
tick does deliver it (one `send_to` call), contradicting the claim that an
all-empty snapshot is never delivered. -/
theorem C4_counterexample :
    get_info [[], []] = [10]
    ∧ ((runLoop [] [⟨true, [[], []], true⟩]).1.filter Event.isSend).length
        = 1 := by
  decide

/-- C4 (amended): the skip-empty guard fires exactly when `get_info` returns
the empty string, which happens with zero enabled sources or with a single
enabled source returning empty text; on such a tick no `send_to` occurs and
the loop's remaining behaviour is unchanged. (With two or more enabled
sources all returning empty text the snapshot is a string of newlines,
which IS delivered — see the counterexample.) -/
theorem C4_theorem (buf : List Nat) (rest : List TickInput)
    (outs : List (List Nat)) (sOk : Bool)
    (h : outs = [] ∨ outs = [[]]) :
    get_info outs = []
    ∧ (runLoop buf (⟨true, outs, sOk⟩ :: rest)).1.filter Event.isSend
        = (runLoop buf rest).1.filter Event.isSend
    ∧ (runLoop buf (⟨true, outs, sOk⟩ :: rest)).2 = (runLoop buf rest).2 := by
  have hinfo : get_info outs = [] := by
    rcases h with h | h <;> subst h <;> rfl
  refine ⟨hinfo, ?_, ?_⟩ <;> simp [runLoop, hinfo, Event.isSend]

/-- Witness for C4 with one enabled source returning empty text. -/
theorem C4_witness :
    get_info [[]] = []
    ∧ (runLoop [] [⟨true, [[]], true⟩]).1.filter Event.isSend
        = (runLoop [] []).1.filter Event.isSend
    ∧ (runLoop [] [⟨true, [[]], true⟩]).2 = (runLoop [] []).2 :=
  C4_theorem [] [] [[]] true (Or.inr rfl)

/-- C6: when the flag is observed false at the top of an iteration, the loop
performs nothing further — no snapshot is built, no `send_to` happens,
whatever ticks would have followed — and it ends in the graceful (Stopped)
outcome, which is terminal. -/
theorem C6_theorem (buf : List Nat) (outs : List (List Nat)) (sOk : Bool)
    (rest : List TickInput) :
    runLoop buf (⟨false, outs, sOk⟩ :: rest) = ([], Outcome.graceful) := by
  simp [runLoop]

/-- C10: starting from the empty buffer `Vec::new()`, the loop with the
reusable encode buffer behaves exactly like the bufferless reference loop —
every buffer handed to `send_to` is precisely that tick's encoded message,
because `buf.set_len(0)` empties the buffer after every successful send and
a failed send ends the loop. -/
theorem C10_theorem (inps : List TickInput) : runLoop [] inps = refLoop inps := by
  induction inps with
  | nil => rfl
  | cons i rest ih =>
    by_cases hr : i.running
    · by_cases he : get_info i.outs = []
      · simp [runLoop, refLoop, hr, he, ih]
      · by_cases hs : i.sendOk
        · simp [runLoop, refLoop, hr, he, hs, ih]
        · simp [runLoop, refLoop, hr, he, hs]
    · simp [runLoop, refLoop, hr]

/-- C2 (counterexample): if the `memory_info()` query fails, the GPU
source's `get_info` does not return a string — the `.unwrap()` panics and
aborts the process (modelled as `none`), so the abort branch is
reachable. -/
theorem C2_counterexample :
    GpuInfo.get_info ⟨Except.error (), Except.ok 0, Except.ok 0, Except.ok 0⟩
      = none := rfl

/-- C2 (amended): the GPU source contains only the temperature read inside
its own fallback (`match … Err(_) => ""`): `get_info` returns a string
exactly when `memory_info()`, `utilization_rates()` and `power_usage()` all
succeed, a temperature failure merely omitting its field; whenever any of
those three queries fails, the `.unwrap()` panics and the process aborts. -/
theorem C2_theorem (q : GpuQueryResults) :
    (GpuInfo.get_info q).isSome
      ↔ (q.memInfo.isOk ∧ q.utilization.isOk ∧ q.powerUsage.isOk) := by
  obtain ⟨m, u, p, t⟩ := q
  rcases m with e | mt
  · simp [GpuInfo.get_info, Except.isOk, Except.toBool]
  · obtain ⟨used, total⟩ := mt
    rcases u with e | u <;> rcases p with e | p <;>
      simp [GpuInfo.get_info, Except.isOk, Except.toBool]

/-- C7 (counterexample): at a 125 000 mW reading (an exact `f32`
computation: `125000 as f32 / 1000.0 = 125.0`), the power field is
`"125.00"` — two decimal places — and not the three-decimal `"125.000"` the
claim describes. -/
theorem C7_counterexample :
    powerWattsStr 125000 = [49, 50, 53, 46, 48, 48]
    ∧ powerWattsStr 125000 ≠ [49, 50, 53, 46, 48, 48, 48] := by
  have h1 : ((125000 : ℕ) : ℚ) / 1000 * 100 = ((12500 : ℤ) : ℚ) := by norm_num
  have h2 : powerWattsStr 125000 = [49, 50, 53, 46, 48, 48] := by
    unfold powerWattsStr fmtFixed2
    rw [h1, rheQ_intCast]
    decide
  exact ⟨h2, by rw [h2]; decide⟩

/-- C7 (amended): the GPU power field reports the milliwatt reading divided
by 1000, formatted with TWO-decimal precision: the rendered string is
integer digits, a dot, and exactly two fractional digits, and the value it
denotes (`h` hundredths of a watt) is within half a hundredth
(`1/200` W) of `mw / 1000`. -/
theorem C7_theorem (mw : Nat) :
    ∃ h : Nat,
      powerWattsStr mw
        = natDigits (h / 100) ++ [46, 48 + h / 10 % 10, 48 + h % 10]
      ∧ (∀ d ∈ natDigits (h / 100), 48 ≤ d ∧ d ≤ 57)
      ∧ |(h : ℚ) / 100 - (mw : ℚ) / 1000| ≤ 1 / 200 := by
  refine ⟨(rheQ ((mw : ℚ) / 1000 * 100)).toNat, rfl, natDigits_mem_range _, ?_⟩
  set q : ℚ := (mw : ℚ) / 1000 * 100 with hq
  have hq0 : 0 ≤ q := by positivity
  have hnn : 0 ≤ rheQ q := rheQ_nonneg q hq0
  have hcast : ((rheQ q).toNat : ℚ) = ((rheQ q : ℤ) : ℚ) := by
    exact_mod_cast Int.toNat_of_nonneg hnn
  have hmw : (mw : ℚ) / 1000 = q / 100 := by rw [hq]; ring
  rw [hcast, hmw, div_sub_div_same, abs_div]
  have h100 : |(100 : ℚ)| = 100 := by norm_num
  rw [h100]
  have hclose := rheQ_close q
  linarith

/-- C9: encoding the outbound OSC message — address `"/chatbox/input"`, then
the snapshot string and the boolean `true` — and decoding the bytes with a
conformant OSC decoder yields back exactly the original text and the
boolean-true argument, for every snapshot without interior null bytes. -/
theorem C9_theorem (s : List Nat) (h : 0 ∉ s) :
    decodeMsg (oscSnapshotMsg s)
      = some (chatboxAddr, [OscArg.str s, OscArg.bool true]) := by
  apply decodeMsg_encodeMsg
  · decide
  · intro s' hs'
    rcases List.mem_cons.mp hs' with h1 | h1
    · injection h1 with e
      rw [e]
      exact h
    · simp at h1

/-- Witness for C9 at the two-byte snapshot `"Hi"`. -/
theorem C9_witness :
    decodeMsg (oscSnapshotMsg [72, 105])
      = some (chatboxAddr, [OscArg.str [72, 105], OscArg.bool true]) :=
  C9_theorem [72, 105] (by decide)

end SysinfoOsc
